import Mathlib

/-!
Verification of the command-execution and result-interpretation layer of
the `pygit` repository facade (`pygit/repository.py`), via a shallow
embedding in Lean 4.

The external process itself cannot run here, so each operation is modelled
as a pure function of the `CommandInvocation` produced by the (modelled)
process runner: the fields a finished `subprocess.Popen` exposes after
`wait()` — captured stdout, captured stderr and the exit status.  All
output parsing (`getRefs`, `getBranches`, `_deduceNewCommitFromCommitOutput`)
is translated character-for-character from the Python source, working over
`List Char` so every definition is executable and structurally recursive.
-/

/-- The result of one finished subprocess invocation, as exposed by the
Python `subprocess.Popen` object after `wait()`: captured stdout, captured
stderr and the exit status (`returncode`). -/
structure CommandInvocation where
  stdout : String
  stderr : String
  returncode : Int
deriving Repr, DecidableEq

/-- The repository's exception hierarchy (`pygit.exceptions`): the base
class `GitException` together with its subclass
`GitCommandFailedException`, which carries the command line and the
finished invocation (`repository.py` line 56 raises
`GitCommandFailedException(command, returned)`).  The `gitError`
constructor stands for a plain `GitException(message)` such as the one
raised by `init`. -/
inductive GitException where
  | commandFailed (command : String) (returned : CommandInvocation)
  | gitError (message : String)
deriving Repr, DecidableEq

/-- `Repository._executeGitCommandAssertSuccess` (repository.py lines
52-57): given the finished invocation of `command`, raise
`GitCommandFailedException(command, returned)` when the exit status is
non-zero, and return the invocation unchanged otherwise. -/
def executeGitCommandAssertSuccess (command : String)
    (returned : CommandInvocation) : Except GitException CommandInvocation :=
  if returned.returncode ≠ 0 then
    Except.error (GitException.commandFailed command returned)
  else
    Except.ok returned

/-- `Repository._getOutputAssertSuccess` (repository.py lines 58-59):
assert success, then read the captured stdout. -/
def getOutputAssertSuccess (command : String)
    (returned : CommandInvocation) : Except GitException String :=
  (executeGitCommandAssertSuccess command returned).map
    (fun r => r.stdout)

/-! ## Ref-listing parsing (`RemoteRepository.getRefs`, repository.py lines 66-80) -/

/-- Auxiliary worker for Python's `str.split()` with no argument: split on
runs of whitespace, discarding empty pieces.  `cur` is the token being
accumulated. -/
def splitWSAux : List Char → List Char → List (List Char)
  | [], cur => if cur.isEmpty then [] else [cur]
  | c :: rest, cur =>
    if c.isWhitespace then
      if cur.isEmpty then splitWSAux rest [] else cur :: splitWSAux rest []
    else
      splitWSAux rest (cur ++ [c])

/-- Python `str.split()` (no argument): whitespace-separated tokens. -/
def splitWS (cs : List Char) : List (List Char) :=
  splitWSAux cs []

/-- Split a character stream at newline characters, keeping empty pieces
(the analogue of `String.splitOn "\n"` on the character level). -/
def splitOnNL : List Char → List (List Char)
  | [] => [[]]
  | c :: rest =>
    match splitOnNL rest with
    | [] => [[c]]
    | l :: ls => if c = '\n' then [] :: l :: ls else (c :: l) :: ls

/-- The lines Python file iteration yields for captured stdout, minus
their trailing newlines: the pieces between newlines, with the artifact
empty piece after a trailing newline dropped (Python yields no empty final
line for output ending in a newline). -/
def stdoutLines (cs : List Char) : List (List Char) :=
  let ls := splitOnNL cs
  if ls.getLast? = some [] then ls.dropLast else ls

/-- The domain values the ref-listing can yield: `branch.Branch` (a ref
under `refs/heads/`) or a generic `ref.Ref`.  The owning-repository back
reference carries no information for the parsing claims and is omitted. -/
inductive GitRef where
  | branch (name : String)
  | ref (name : String)
deriving Repr, DecidableEq

/-- The ordered prefix table of `RemoteRepository.getRefs` (repository.py
lines 70-73): `refs/heads/` yields a `Branch`, `refs/tags/` and
`refs/remotes/` yield nothing (`None` class), the empty prefix yields a
generic `Ref`. -/
def refPrefixTable : List (List Char × Option (String → GitRef)) :=
  [("refs/heads/".data, some GitRef.branch),
   ("refs/tags/".data, none),
   ("refs/remotes/".data, none),
   ([], some GitRef.ref)]

/-- The body of the `for prefix, cls in [...]` loop (repository.py lines
70-77): first matching prefix wins (`break`); a matching entry with a
`None` class yields nothing; a matching entry with a class yields it
applied to the refname minus the prefix. -/
def classifyFirstMatch : List (List Char × Option (String → GitRef)) →
    List Char → Option GitRef
  | [], _ => none
  | (p, cls) :: rest, refname =>
    if p.isPrefixOf refname then
      match cls with
      | some f => some (f (String.mk (refname.drop p.length)))
      | none => none
    else
      classifyFirstMatch rest refname

/-- Classification of one refname by the ordered prefix table. -/
def classifyRefName (refname : List Char) : Option GitRef :=
  classifyFirstMatch refPrefixTable refname

/-- Processing of one output line of `git ls-remote` (repository.py lines
68-77): `commit, refname = output_line.split()` — a `ValueError` (modelled
as the outer `none`) unless the line splits into exactly two tokens — then
classify the refname.  The inner `Option` is what the line contributes to
the generator. -/
def parseRefLine (line : List Char) : Option (Option GitRef) :=
  match splitWS line with
  | [_, refname] => some (classifyRefName refname)
  | _ => none

/-- `RemoteRepository.getRefs` as a function of the captured `ls-remote`
stdout: each line is parsed; `none` means the generator raised while
unpacking a malformed line. -/
def getRefs (output : List Char) : Option (List GitRef) :=
  ((stdoutLines output).mapM parseRefLine).map (fun l => l.filterMap id)

/-- Is a yielded ref a `branch.Branch` instance? -/
def GitRef.isBranch : GitRef → Bool
  | GitRef.branch _ => true
  | GitRef.ref _ => false

/-- `RemoteRepository.getBranches` (repository.py lines 78-80): the refs
yielded by `getRefs` that are `Branch` instances. -/
def getBranchesRemote (output : List Char) : Option (List GitRef) :=
  (getRefs output).map (fun l => l.filter GitRef.isBranch)

/-! ## Commit-output parsing (`LocalRepository._deduceNewCommitFromCommitOutput`,
repository.py lines 154-162).  The single pattern in the source's pattern
list is the Python regular expression
`^\[\S+\s+(?:\(root-commit\)\s+)?(\S+)\]`, tried with `re.search` and no
`MULTILINE` flag, so the `^` anchor restricts any match to position 0 of
the whole output text.  The matcher below reproduces that pattern's
backtracking semantics: both `\S+`/`\s+` runs are forced maximal (each is
followed by an atom the other class cannot start), the optional
`(root-commit)` group is tried greedily with fallback, and the final
greedy `(\S+)\]` captures up to the last `]` inside the maximal
non-whitespace run. -/

/-- A commit value: `commit.Commit(repository, hash)` minus the owning
repository back-reference, which carries no information here. -/
structure Commit where
  hash : String
deriving Repr, DecidableEq

/-- Maximal run of characters satisfying `p`, with the remainder. -/
def takeRun (p : Char → Bool) : List Char → List Char × List Char
  | [] => ([], [])
  | c :: cs =>
    if p c then
      let (t, r) := takeRun p cs
      (c :: t, r)
    else ([], c :: cs)

/-- Regex `\S`: any non-whitespace character. -/
def nonWS (c : Char) : Bool := !c.isWhitespace

/-- The literal `(root-commit)` inside the optional group. -/
def rootMarker : List Char := "(root-commit)".data

/-- Index of the last `]` of a character list, if any. -/
def lastCloseIdx : List Char → Option Nat
  | [] => none
  | c :: cs =>
    match lastCloseIdx cs with
    | some k => some (k + 1)
    | none => if c = ']' then some 0 else none

/-- Greedy `(\S+)\]` at the current position: take the maximal
non-whitespace run, then backtrack the capture to the last `]` inside it;
the capture must be non-empty. -/
def matchCapture (cs : List Char) : Option (List Char) :=
  let run := (takeRun nonWS cs).1
  match lastCloseIdx run with
  | some 0 => none
  | some k => some (run.take k)
  | none => none

/-- The whole pattern `^\[\S+\s+(?:\(root-commit\)\s+)?(\S+)\]`, anchored
at position 0, returning the capture group. -/
def deduceAux (cs : List Char) : Option (List Char) :=
  match cs with
  | [] => none
  | c :: rest =>
    if c = '[' then
      let (b, rest1) := takeRun nonWS rest
      if b.isEmpty then none
      else
        let (w, rest2) := takeRun (fun x => x.isWhitespace) rest1
        if w.isEmpty then none
        else
          (if rootMarker.isPrefixOf rest2 then
            let rest3 := rest2.drop rootMarker.length
            let (w2, rest4) := takeRun (fun x => x.isWhitespace) rest3
            if w2.isEmpty then none else matchCapture rest4
          else none) <|> matchCapture rest2
    else none

/-- `LocalRepository._deduceNewCommitFromCommitOutput` (repository.py
lines 154-162): search the single pattern against the output; a match
yields `Commit(self, match.group(1))`, no match yields `None`. -/
def deduceNewCommitFromCommitOutput (output : List Char) : Option Commit :=
  (deduceAux output).map (fun h => Commit.mk (String.mk h))

/-! ## Local branch listing (`LocalRepository.getBranches`, repository.py lines 112-116) -/

/-- Python `str.strip()`, left half: drop leading whitespace. -/
def pyStripLeft (cs : List Char) : List Char :=
  cs.dropWhile Char.isWhitespace

/-- Python `str.strip()`, right half: drop trailing whitespace. -/
def pyStripRight (cs : List Char) : List Char :=
  (cs.reverse.dropWhile Char.isWhitespace).reverse

/-- Python `str.strip()`: drop leading and trailing whitespace. -/
def pyStrip (cs : List Char) : List Char :=
  pyStripRight (pyStripLeft cs)

/-- The per-line body of `LocalRepository.getBranches` (repository.py
lines 113-116): drop one leading `*` (the current-branch marker) if the
line starts with one, then strip surrounding whitespace; the result is the
yielded branch name. -/
def processBranchLine (line : List Char) : List Char :=
  pyStrip (if ['*'].isPrefixOf line then line.drop 1 else line)

/-- A `branch.Branch` value minus its owning-repository back-reference. -/
structure Branch where
  name : String
deriving Repr, DecidableEq

/-- `LocalRepository.getBranches` as a function of the lines of the
captured `git branch` stdout: one `Branch` is yielded per line. -/
def getBranchesLocal (lines : List (List Char)) : List Branch :=
  lines.map (fun l => Branch.mk (String.mk (processBranchLine l)))

/-! ## ShellQuoting (`pygit.utils.quote_for_shell`).  The `utils` module is
not among the sources; the quoting function and the receiving shell are
modelled from the spec (section 4.1): produce a token safe to embed in a
shell command line such that the receiving POSIX shell reconstructs
exactly the original string as a single argument. -/

/-- The single-quote character. -/
def squoteChar : Char := Char.ofNat 39

/-- The double-quote character. -/
def dquoteChar : Char := Char.ofNat 34

/-- The backquote character (command substitution inside double quotes). -/
def bquoteChar : Char := Char.ofNat 96

/-- Modelled from the spec: the body of `quote_for_shell`, POSIX
single-quote escaping — each single quote becomes the four characters
close-quote, escaped quote, reopen-quote; every other character is
carried verbatim inside the enclosing single quotes. -/
def quoteBody : List Char → List Char
  | [] => []
  | c :: cs =>
    (if c = squoteChar then [squoteChar, '\\', squoteChar, squoteChar]
     else [c]) ++ quoteBody cs

/-- Modelled from the spec: `quote_for_shell` on the character level —
the escaped body wrapped in single quotes. -/
def quoteChars (cs : List Char) : List Char :=
  squoteChar :: (quoteBody cs ++ [squoteChar])

/-- Modelled from the spec: `pygit.utils.quote_for_shell`, absent from the
sources — produce a single shell token that the receiving shell
reconstructs as exactly the original string. -/
def quote_for_shell (s : String) : String :=
  String.mk (quoteChars s.data)

mutual

/-- The receiving POSIX shell's word splitting, outside any quotes:
whitespace separates arguments, a backslash escapes the next character,
single and double quotes open quoted regions.  `cur` is the argument
being accumulated, `started` records whether the argument has begun
(so empty quoted strings still produce an argument), `acc` holds the
finished arguments. -/
def lexOut : List Char → List Char → Bool → List (List Char) →
    Option (List (List Char))
  | [], cur, started, acc => some (if started then acc ++ [cur] else acc)
  | c :: rest, cur, started, acc =>
    if c = squoteChar then lexSQ rest cur acc
    else if c = dquoteChar then lexDQ rest cur acc
    else if c = '\\' then
      match rest with
      | [] => none
      | c2 :: rest2 => lexOut rest2 (cur ++ [c2]) true acc
    else if c.isWhitespace then
      if started then lexOut rest [] false (acc ++ [cur])
      else lexOut rest [] false acc
    else lexOut rest (cur ++ [c]) true acc

/-- Inside a single-quoted region: every character is literal until the
closing single quote; an unterminated region is a lexing failure. -/
def lexSQ : List Char → List Char → List (List Char) →
    Option (List (List Char))
  | [], _, _ => none
  | c :: rest, cur, acc =>
    if c = squoteChar then lexOut rest cur true acc
    else lexSQ rest (cur ++ [c]) acc

/-- Inside a double-quoted region: a backslash escapes the double quote,
backslash, dollar and backquote characters and is otherwise literal;
everything else is literal until the closing double quote. -/
def lexDQ : List Char → List Char → List (List Char) →
    Option (List (List Char))
  | [], _, _ => none
  | c :: rest, cur, acc =>
    if c = dquoteChar then lexOut rest cur true acc
    else if c = '\\' then
      match rest with
      | [] => none
      | c2 :: rest2 =>
        if c2 = dquoteChar ∨ c2 = '\\' ∨ c2 = '$' ∨ c2 = bquoteChar then
          lexDQ rest2 (cur ++ [c2]) acc
        else
          lexDQ rest2 (cur ++ ['\\', c2]) acc
    else lexDQ rest (cur ++ [c]) acc

end

/-- The receiving shell's view of a whole command line: the list of
arguments it reconstructs. -/
def shellSplitArgs (s : String) : Option (List String) :=
  (lexOut s.data [] false []).map (fun l => l.map String.mk)

/-! ## Repository operations (`LocalRepository`, repository.py lines 83-216).
Each operation runs exactly one external command; it is modelled as a pure
function of that command's finished `CommandInvocation`. -/

/-- A `remotes.Remote` value minus its owning-repository back-reference. -/
structure Remote where
  name : String
  url : String
deriving Repr, DecidableEq

/-- The Python exceptions that can escape `merge`: a `GitException`
(including `GitCommandFailedException`) or the built-in
`NotImplementedError`. -/
inductive PyError where
  | git (e : GitException)
  | notImplementedError
deriving Repr, DecidableEq

/-- `LocalRepository.merge` (repository.py lines 182-186): run
`git merge <what>` asserting success, and convert any `GitException` into
`NotImplementedError` (the unimplemented conflict-resolution signal). -/
def merge (what : String) (inv : CommandInvocation) : Except PyError Unit :=
  match executeGitCommandAssertSuccess ("git merge " ++ what) inv with
  | Except.error _ => Except.error PyError.notImplementedError
  | Except.ok _ => Except.ok ()

/-- `LocalRepository.containsCommit` (repository.py lines 120-125): run
`git log -1 <commit>` asserting success; a `GitException` is caught and
converted into `False`, success into `True`. -/
def containsCommit (commitExpr : String) (inv : CommandInvocation) : Bool :=
  match executeGitCommandAssertSuccess ("git log -1 " ++ commitExpr) inv with
  | Except.error _ => false
  | Except.ok _ => true

/-- `LocalRepository.clone` (repository.py lines 109-110). -/
def cloneOp (url path : String) (inv : CommandInvocation) :
    Except GitException Unit :=
  (executeGitCommandAssertSuccess ("git clone " ++ url ++ " " ++ path)
    inv).map (fun _ => ())

/-- `LocalRepository._getCommitByRefName` (repository.py lines 89-90):
`git rev-parse <name>`, stripped stdout as the commit hash. -/
def getCommitByRefNameOp (name : String) (inv : CommandInvocation) :
    Except GitException Commit :=
  (getOutputAssertSuccess ("git rev-parse " ++ name) inv).map
    (fun out => Commit.mk (String.mk (pyStrip out.data)))

/-- `LocalRepository._getFiles` (repository.py lines 128-131):
`git ls-files` with `--exclude-standard` prepended to the flags; each
stdout line stripped. -/
def getFilesOp (flags : List String) (inv : CommandInvocation) :
    Except GitException (List String) :=
  (getOutputAssertSuccess
      ("git ls-files " ++ String.intercalate " " ("--exclude-standard" :: flags))
      inv).map
    (fun out => (stdoutLines out.data).map (fun f => String.mk (pyStrip f)))

/-- `LocalRepository.getStagedFiles` (repository.py lines 132-133). -/
def getStagedFilesOp (inv : CommandInvocation) : Except GitException (List String) :=
  getFilesOp ["--cached"] inv

/-- `LocalRepository.getChangedFiles` (repository.py lines 136-137). -/
def getChangedFilesOp (inv : CommandInvocation) : Except GitException (List String) :=
  getFilesOp ["--modified"] inv

/-- `LocalRepository.getUntrackedFiles` (repository.py lines 138-139). -/
def getUntrackedFilesOp (inv : CommandInvocation) : Except GitException (List String) :=
  getFilesOp ["--others"] inv

/-- `LocalRepository.getBranches` (repository.py lines 112-116) as a whole
operation: `git branch` asserting success, one branch per stdout line. -/
def getBranchesLocalOp (inv : CommandInvocation) :
    Except GitException (List Branch) :=
  (executeGitCommandAssertSuccess "git branch" inv).map
    (fun r => getBranchesLocal (stdoutLines r.stdout.data))

/-- `LocalRepository.add` (repository.py lines 145-146). -/
def addOp (path : String) (inv : CommandInvocation) :
    Except GitException Unit :=
  (executeGitCommandAssertSuccess ("git add " ++ quote_for_shell path)
    inv).map (fun _ => ())

/-- `LocalRepository.commit` (repository.py lines 163-165):
`git commit -m <quoted message>`, then deduce the new commit from the
captured stdout. -/
def commitOp (message : String) (inv : CommandInvocation) :
    Except GitException (Option Commit) :=
  (getOutputAssertSuccess ("git commit -m " ++ quote_for_shell message)
    inv).map (fun out => deduceNewCommitFromCommitOutput out.data)

/-- The command string `LocalRepository.createBranch` builds (repository.py
lines 167-171): `"git branch %s" % name`, with `str(startingPoint)`
concatenated directly — with no separating space — when a starting point
is given. -/
def createBranchCommand (name : String) (startingPoint : Option String) :
    String :=
  match startingPoint with
  | none => "git branch " ++ name
  | some sp => ("git branch " ++ name) ++ sp

/-- `LocalRepository.createBranch` (repository.py lines 167-172). -/
def createBranch (name : String) (startingPoint : Option String)
    (inv : CommandInvocation) : Except GitException Branch :=
  (executeGitCommandAssertSuccess (createBranchCommand name startingPoint)
    inv).map (fun _ => Branch.mk name)

/-- The command string `LocalRepository.checkout` builds (repository.py
lines 173-181). -/
def checkoutCommand (thing : String) (targetBranch : Option String)
    (files : List String) : String :=
  let c := "git checkout " ++ thing
  let c := match targetBranch with
    | none => c
    | some t => c ++ " -b " ++ t
  match files with
  | [] => c
  | _ => c ++ " -- " ++ String.intercalate " " files

/-- `LocalRepository.checkout` (repository.py lines 173-181). -/
def checkoutOp (thing : String) (targetBranch : Option String)
    (files : List String) (inv : CommandInvocation) :
    Except GitException Unit :=
  (executeGitCommandAssertSuccess (checkoutCommand thing targetBranch files)
    inv).map (fun _ => ())

/-- `LocalRepository._reset` (repository.py lines 187-194):
`git reset <flag> <thing>` where the flag is empty or `--<mode>`. -/
def resetOp (flag : Option String) (thing : String)
    (inv : CommandInvocation) : Except GitException Unit :=
  (executeGitCommandAssertSuccess
      ("git reset " ++ (match flag with | none => "" | some f => "--" ++ f)
        ++ " " ++ thing) inv).map (fun _ => ())

/-- `LocalRepository.addRemote` (repository.py lines 202-204). -/
def addRemoteOp (name url : String) (inv : CommandInvocation) :
    Except GitException Remote :=
  (executeGitCommandAssertSuccess ("git remote add " ++ name ++ " " ++ url)
    inv).map (fun _ => Remote.mk name url)

/-- The command string `LocalRepository.fetch` builds (repository.py lines
205-210). -/
def fetchCommand (repo : Option String) : String :=
  match repo with
  | none => "git fetch"
  | some u => "git fetch" ++ " " ++ u

/-- `LocalRepository.fetch` (repository.py lines 205-210). -/
def fetchOp (repo : Option String) (inv : CommandInvocation) :
    Except GitException Unit :=
  (executeGitCommandAssertSuccess (fetchCommand repo) inv).map (fun _ => ())

/-- The command string `LocalRepository.pull` builds (repository.py lines
211-216). -/
def pullCommand (repo : Option String) : String :=
  match repo with
  | none => "git pull"
  | some u => "git pull" ++ " " ++ u

/-- `LocalRepository.pull` (repository.py lines 211-216). -/
def pullOp (repo : Option String) (inv : CommandInvocation) :
    Except GitException Unit :=
  (executeGitCommandAssertSuccess (pullCommand repo) inv).map (fun _ => ())

/-- The command-execution step of `LocalRepository.init` (repository.py
line 100): once the directory checks of lines 95-99 have passed (see
`initRepo`), `git init` — with `--bare` when requested — is run through
the assert-success chokepoint with no handler around it. -/
def initCommandOp (bare : Bool) (inv : CommandInvocation) :
    Except GitException Unit :=
  (executeGitCommandAssertSuccess
      ("git init " ++ (if bare then "--bare" else "")) inv).map (fun _ => ())

/-- `RemoteRepository.getRefs` (repository.py lines 66-77) as a whole
operation: `git ls-remote <url>` through the assert-success chokepoint
with no handler, then the line-by-line parsing of `getRefs` over the
captured stdout. -/
def getRefsRemoteOp (url : String) (inv : CommandInvocation) :
    Except GitException (Option (List GitRef)) :=
  (executeGitCommandAssertSuccess ("git ls-remote " ++ url) inv).map
    (fun r => getRefs r.stdout.data)

/-! ## Working directories (`Repository._getWorkingDirectory` /
`_executeGitCommand`, repository.py lines 40-51, 87-88, 109-110) -/

/-- The two repository variants: `LocalRepository(path)` and
`RemoteRepository(url)`. -/
inductive Repository where
  | localRepo (path : String)
  | remoteRepo (url : String)
deriving Repr, DecidableEq

/-- `_getWorkingDirectory`: the base class returns `"."` (repository.py
lines 40-41) — inherited by `RemoteRepository` — and `LocalRepository`
overrides it with its path (repository.py lines 87-88). -/
def getWorkingDirectory : Repository → String
  | Repository.localRepo path => path
  | Repository.remoteRepo _ => "."

/-- The working-directory resolution of `_executeGitCommand`
(repository.py lines 42-44): an explicit `cwd` argument wins, otherwise
the repository's `_getWorkingDirectory` is used. -/
def resolveCwd (repo : Repository) (cwd : Option String) : String :=
  match cwd with
  | none => getWorkingDirectory repo
  | some c => c

/-- Every `_executeGitCommand*` call site in `LocalRepository`, with the
`cwd` override it passes: only `clone` (repository.py line 110) overrides
the working directory, with `"."`. -/
def localOpCwdOverrides : List (String × Option String) :=
  [("init", none), ("clone", some "."), ("rev-parse", none),
   ("branch list", none), ("log -1", none), ("ls-files", none),
   ("add", none), ("commit", none), ("branch create", none),
   ("checkout", none), ("merge", none), ("reset", none),
   ("remote add", none), ("fetch", none), ("pull", none)]

/-! ## Repository initialization (`LocalRepository.init`, repository.py
lines 94-100) -/

/-- The state of the target path on the filesystem: absent, an existing
directory, or an existing non-directory. -/
inductive PathState where
  | absent
  | dir
  | nonDir
deriving Repr, DecidableEq

/-- `LocalRepository.init` (repository.py lines 94-100): if the path does
not exist, create the directory (`os.mkdir`, modelled as succeeding for a
creatable path); if the path is then not a directory, raise the
creation-failure `GitException`; otherwise run `git init` (with `--bare`
when requested — the command is built as `"git init %s"`, so the flagless
spelling keeps a trailing space).  The returned pair is the resulting path
state and the initialization command run. -/
def initRepo (path : String) (ps : PathState) (bare : Bool) :
    Except GitException (PathState × String) :=
  let ps1 := match ps with
    | PathState.absent => PathState.dir
    | s => s
  match ps1 with
  | PathState.nonDir => Except.error (GitException.gitError
      ("Cannot create repository in " ++ path ++ " - not a directory"))
  | _ => Except.ok (ps1, "git init " ++ (if bare then "--bare" else ""))

/-! ## Branch creation (`LocalRepository.createBranch`, repository.py
lines 167-172) -/

/-! ## Theorems -/

/-- C2: `_executeGitCommandAssertSuccess` raises
`CommandFailed(command, returned)` if and only if the exit status is
non-zero, returns the invocation unchanged on exit status 0, and
`_getOutputAssertSuccess` fails in exactly the same condition, otherwise
returning the captured stdout. -/
theorem c2_assertSuccess_characterization
    (command : String) (inv : CommandInvocation) :
    (executeGitCommandAssertSuccess command inv
        = Except.error (GitException.commandFailed command inv)
      ↔ inv.returncode ≠ 0)
    ∧ (inv.returncode = 0 →
        executeGitCommandAssertSuccess command inv = Except.ok inv)
    ∧ (getOutputAssertSuccess command inv
        = Except.error (GitException.commandFailed command inv)
      ↔ inv.returncode ≠ 0)
    ∧ (inv.returncode = 0 →
        getOutputAssertSuccess command inv = Except.ok inv.stdout) := by
  unfold getOutputAssertSuccess executeGitCommandAssertSuccess
  by_cases h : inv.returncode = 0 <;>
    simp [h, Except.map]

/-- Concrete instantiation of `c2_assertSuccess_characterization`: a
failing invocation (exit status 1) raises, a succeeding one (exit status
0) returns its stdout. -/
theorem c2_assertSuccess_characterization_witness :
    (executeGitCommandAssertSuccess "git log"
        (CommandInvocation.mk "" "boom" 1)
      = Except.error (GitException.commandFailed "git log"
          (CommandInvocation.mk "" "boom" 1)))
    ∧ (getOutputAssertSuccess "git status"
        (CommandInvocation.mk "out" "" 0) = Except.ok "out") :=
  ⟨((c2_assertSuccess_characterization "git log"
      (CommandInvocation.mk "" "boom" 1)).1).mpr (by decide),
   ((c2_assertSuccess_characterization "git status"
      (CommandInvocation.mk "out" "" 0)).2.2.2) rfl⟩

/-- C1: each well-formed ref-listing line (splitting into a hash token and
a refname token) is classified first-match-wins over the ordered prefix
table: a `refs/heads/` refname yields a `Branch` named with the prefix
stripped, `refs/tags/` and `refs/remotes/` refnames yield nothing, and any
other refname yields a generic `Ref` under its full name; and on the input
`"abc123 refs/heads/main\ndef456 refs/tags/v1\n"`, `getBranches` yields
exactly one branch, named `main`. -/
theorem c1_refListing_classification :
    (∀ line h r : List Char, splitWS line = [h, r] →
      parseRefLine line = some (
        if "refs/heads/".data.isPrefixOf r then
          some (GitRef.branch (String.mk (r.drop 11)))
        else if "refs/tags/".data.isPrefixOf r then none
        else if "refs/remotes/".data.isPrefixOf r then none
        else some (GitRef.ref (String.mk r))))
    ∧ getBranchesRemote ("abc123 refs/heads/main\ndef456 refs/tags/v1\n".data)
        = some [GitRef.branch "main"] := by
  refine ⟨fun line h r hl => ?_, by decide⟩
  unfold parseRefLine
  rw [hl]
  by_cases h1 : "refs/heads/".data.isPrefixOf r <;>
  by_cases h2 : "refs/tags/".data.isPrefixOf r <;>
  by_cases h3 : "refs/remotes/".data.isPrefixOf r <;>
  simp [classifyRefName, refPrefixTable, classifyFirstMatch, h1, h2, h3]

/-- Concrete instantiation of `c1_refListing_classification`: the line
`"abc123 refs/heads/dev"` splits into two tokens and yields the branch
`dev`. -/
theorem c1_refListing_classification_witness :
    splitWS ("abc123 refs/heads/dev".data)
      = ["abc123".data, "refs/heads/dev".data]
    ∧ parseRefLine ("abc123 refs/heads/dev".data)
      = some (some (GitRef.branch "dev")) :=
  ⟨by decide,
   (c1_refListing_classification.1 ("abc123 refs/heads/dev".data)
      ("abc123".data) ("refs/heads/dev".data) (by decide)).trans (by decide)⟩

theorem takeRun_append (p : Char → Bool) (xs rest : List Char)
    (hxs : ∀ x ∈ xs, p x = true)
    (hrest : ∀ c, rest.head? = some c → p c = false) :
    takeRun p (xs ++ rest) = (xs, rest) := by
  induction xs with
  | nil =>
    cases rest with
    | nil => rfl
    | cons c r =>
      have : p c = false := hrest c rfl
      simp [takeRun, this]
  | cons x xs ih =>
    have hx : p x = true := hxs x (by simp)
    have := ih (fun y hy => hxs y (by simp [hy]))
    simp [takeRun, hx, this]

theorem lastCloseIdx_append_close (xs : List Char) (hx : ']' ∉ xs) :
    lastCloseIdx (xs ++ [']']) = some xs.length := by
  induction xs with
  | nil => simp [lastCloseIdx]
  | cons x xs ih =>
    have hx' : ']' ∉ xs := fun h => hx (by simp [h])
    simp [lastCloseIdx, ih hx']

theorem deduceAux_general (b h t : List Char)
    (hb : b ≠ []) (hh : h ≠ [])
    (hbw : ∀ c ∈ b, nonWS c = true) (hhw : ∀ c ∈ h, nonWS c = true)
    (hcl : ']' ∉ h) (hpar : h.head? ≠ some '(')
    (ht : ∀ c, t.head? = some c → c.isWhitespace = true) :
    deduceAux ('[' :: (b ++ ' ' :: (h ++ ']' :: t))) = some h := by
  obtain ⟨hc, h', rfl⟩ : ∃ hc h', h = hc :: h' := by
    cases h with
    | nil => exact absurd rfl hh
    | cons a l => exact ⟨a, l, rfl⟩
  have e1 : takeRun nonWS (b ++ ' ' :: ((hc :: h') ++ ']' :: t))
      = (b, ' ' :: ((hc :: h') ++ ']' :: t)) :=
    takeRun_append _ _ _ hbw (by intro c hcw; cases hcw; decide)
  have e2 : takeRun (fun x => x.isWhitespace)
      (' ' :: ((hc :: h') ++ ']' :: t))
      = ([' '], (hc :: h') ++ ']' :: t) := by
    have : (' ' :: ((hc :: h') ++ ']' :: t))
        = [' '] ++ ((hc :: h') ++ ']' :: t) := rfl
    rw [this]
    refine takeRun_append _ _ _ (by intro x hx; simp at hx; simp [hx]) ?_
    intro c hcw
    simp at hcw
    subst hcw
    have := hhw hc (by simp)
    simpa [nonWS] using this
  have hpre : rootMarker.isPrefixOf ((hc :: h') ++ ']' :: t) = false := by
    have : hc ≠ '(' := by
      intro hEq
      exact hpar (by simp [hEq])
    simp [rootMarker, List.isPrefixOf]
    intro hEq
    exact absurd hEq.symm this
  have e3 : takeRun nonWS ((hc :: h') ++ ']' :: t)
      = ((hc :: h') ++ [']'], t) := by
    have : (hc :: h') ++ ']' :: t = ((hc :: h') ++ [']']) ++ t := by simp
    rw [this]
    refine takeRun_append _ _ _ ?_ ?_
    · intro x hx
      simp at hx
      rcases hx with hx | hx | hx
      · exact hhw x (by simp [hx])
      · exact hhw x (by simp [hx])
      · subst hx; decide
    · intro c hcw
      have := ht c hcw
      simp [nonWS, this]
  have e4 : lastCloseIdx ((hc :: h') ++ [']']) = some (h'.length + 1) := by
    have := lastCloseIdx_append_close (hc :: h') hcl
    simpa using this
  have e5 : matchCapture ((hc :: h') ++ ']' :: t) = some (hc :: h') := by
    unfold matchCapture
    rw [e3]
    simp only [e4]
    have : ((hc :: h') ++ [']']).take (h'.length + 1) = hc :: h' := by
      have h1 := List.take_left (hc :: h') [']']
      simp only [List.length_cons] at h1
      exact h1
    simp [this]
  simp only [List.cons_append, List.append_assoc] at e1 e2 e5 hpre
  unfold deduceAux
  simp [e1, e2, hpre, e5, hb]

/-- The claim as frozen is false on the code: the bracket pattern is
anchored at the start of the whole output (`re.search` with `^` and no
`MULTILINE` flag), so a line of the required shape that is not the first
line yields nothing, even though the very same line at position 0 yields
`abc123`. -/
theorem c4_commitOutput_parsing_counterexample :
    deduceNewCommitFromCommitOutput ("x\n[main abc123] m".data) = none
    ∧ deduceNewCommitFromCommitOutput ("[main abc123] m".data)
        = some (Commit.mk "abc123") := by
  constructor <;> decide

/-- C4 (amended): the new-commit parser extracts the hash when the
bracketed summary is at the start of the output (not on an arbitrary
line): it returns `abc123` for `"[main abc123] my message"` and for
`"[main (root-commit) abc123] msg"`, returns nothing rather than failing
when the output does not begin with `[`, and in general returns the hash
token of a leading `[<branch> <hash>]` group. -/
theorem c4_commitOutput_parsing :
    deduceNewCommitFromCommitOutput ("[main abc123] my message".data)
      = some (Commit.mk "abc123")
    ∧ deduceNewCommitFromCommitOutput ("[main (root-commit) abc123] msg".data)
      = some (Commit.mk "abc123")
    ∧ (∀ s : List Char, s.head? ≠ some '[' →
        deduceNewCommitFromCommitOutput s = none)
    ∧ (∀ b h t : List Char, b ≠ [] → h ≠ [] →
        (∀ c ∈ b, nonWS c = true) → (∀ c ∈ h, nonWS c = true) →
        ']' ∉ h → h.head? ≠ some '(' →
        (∀ c, t.head? = some c → c.isWhitespace = true) →
        deduceNewCommitFromCommitOutput ('[' :: (b ++ ' ' :: (h ++ ']' :: t)))
          = some (Commit.mk (String.mk h))) := by
  refine ⟨by decide, by decide, ?_, ?_⟩
  · intro s hs
    cases s with
    | nil => rfl
    | cons c r =>
      have hc : c ≠ '[' := fun hEq => hs (by simp [hEq])
      simp [deduceNewCommitFromCommitOutput, deduceAux, hc]
  · intro b h t hb hh hbw hhw hcl hpar ht
    unfold deduceNewCommitFromCommitOutput
    rw [deduceAux_general b h t hb hh hbw hhw hcl hpar ht]
    rfl

/-- Concrete instantiation of `c4_commitOutput_parsing`: output not
starting with a bracket yields nothing; a leading bracketed group yields
its hash token. -/
theorem c4_commitOutput_parsing_witness :
    deduceNewCommitFromCommitOutput ("nothing to commit".data) = none
    ∧ deduceNewCommitFromCommitOutput
        ('[' :: ("feature".data ++ ' ' :: ("deadbeef".data ++ ']' :: " done".data)))
        = some (Commit.mk "deadbeef") :=
  ⟨c4_commitOutput_parsing.2.2.1 ("nothing to commit".data) (by decide),
   c4_commitOutput_parsing.2.2.2 ("feature".data) ("deadbeef".data)
     (" done".data) (by decide) (by decide) (by decide) (by decide)
     (by decide) (by decide) (by decide)⟩

/-- The head of `dropWhile p` never satisfies `p`. -/
theorem head?_dropWhile_false (p : Char → Bool) (l : List Char) :
    ∀ c, (l.dropWhile p).head? = some c → p c = false := by
  induction l with
  | nil => intro c hcw; simp [List.dropWhile] at hcw
  | cons x xs ih =>
    intro c hcw
    by_cases hx : p x
    · rw [List.dropWhile_cons_of_pos hx] at hcw
      exact ih c hcw
    · rw [List.dropWhile_cons_of_neg hx] at hcw
      simp at hcw
      subst hcw
      exact Bool.eq_false_iff.mpr hx

/-- `dropWhile` leaves a list untouched when no element satisfies `p`. -/
theorem dropWhile_of_all_false (p : Char → Bool) (l : List Char)
    (hl : ∀ c ∈ l, p c = false) : l.dropWhile p = l := by
  cases l with
  | nil => rfl
  | cons x xs =>
    have : p x = false := hl x (by simp)
    simp [List.dropWhile, this]

/-- The head of a stripped list is not whitespace. -/
theorem head?_pyStrip_not_ws (l : List Char) :
    ∀ c, (pyStrip l).head? = some c → c.isWhitespace = false := by
  intro c hcw
  have hpre : pyStripRight (pyStripLeft l) <+: pyStripLeft l := by
    unfold pyStripRight
    have := List.dropWhile_suffix (l := (pyStripLeft l).reverse)
      (p := Char.isWhitespace)
    have h2 := List.IsSuffix.reverse this
    simpa using h2
  obtain ⟨r, hr⟩ := hpre
  unfold pyStrip at hcw
  have hhead : (pyStripLeft l).head? = some c := by
    rw [← hr]
    cases hmm : pyStripRight (pyStripLeft l) with
    | nil => rw [hmm] at hcw; simp at hcw
    | cons a as =>
      rw [hmm] at hcw
      simp at hcw
      simp [hcw]
  exact head?_dropWhile_false Char.isWhitespace l c hhead

/-- The last element of a stripped list is not whitespace. -/
theorem getLast?_pyStrip_not_ws (l : List Char) :
    ∀ c, (pyStrip l).getLast? = some c → c.isWhitespace = false := by
  intro c hcw
  unfold pyStrip pyStripRight at hcw
  rw [List.getLast?_reverse] at hcw
  exact head?_dropWhile_false Char.isWhitespace (pyStripLeft l).reverse c hcw

/-- Stripping a whitespace-free list is the identity. -/
theorem pyStrip_of_ws_free (name : List Char)
    (hn : ∀ c ∈ name, c.isWhitespace = false) : pyStrip name = name := by
  unfold pyStrip pyStripLeft pyStripRight
  rw [dropWhile_of_all_false _ _ hn]
  rw [dropWhile_of_all_false _ _ (fun c hcw => hn c (by simpa using hcw))]
  simp

/-- `dropWhile` skips a block of elements all satisfying `p`. -/
theorem dropWhile_append_of_all_true (p : Char → Bool) (xs rest : List Char)
    (hxs : ∀ x ∈ xs, p x = true) :
    (xs ++ rest).dropWhile p = rest.dropWhile p := by
  induction xs with
  | nil => rfl
  | cons x l ih =>
    have hx : p x = true := hxs x (by simp)
    rw [List.cons_append, List.dropWhile_cons_of_pos hx]
    exact ih (fun y hy => hxs y (by simp [hy]))

/-- Stripping removes exactly a whitespace wrapping around a
whitespace-free core. -/
theorem pyStrip_ws_wrap (pre name post : List Char) (h1 : name ≠ [])
    (h2 : ∀ c ∈ name, c.isWhitespace = false)
    (hpre : ∀ c ∈ pre, c.isWhitespace = true)
    (hpost : ∀ c ∈ post, c.isWhitespace = true) :
    pyStrip (pre ++ (name ++ post)) = name := by
  obtain ⟨a, name', rfl⟩ : ∃ a name', name = a :: name' := by
    cases name with
    | nil => exact absurd rfl h1
    | cons x l => exact ⟨x, l, rfl⟩
  unfold pyStrip pyStripLeft
  rw [dropWhile_append_of_all_true _ _ _ hpre]
  rw [List.cons_append, List.dropWhile_cons_of_neg
    (by simp [h2 a (by simp)])]
  unfold pyStripRight
  rw [show a :: (name' ++ post) = (a :: name') ++ post from rfl,
    List.reverse_append]
  rw [dropWhile_append_of_all_true _ _ _
    (fun c hcw => hpost c (by simpa using hcw))]
  rw [dropWhile_of_all_false _ _
    (fun c hcw => h2 c (by simp at hcw; rcases hcw with hcw | hcw <;> simp [hcw]))]
  simp

/-- The claim as frozen is false on the code: for the line `**x` the code
removes a single leading `*` and yields the name `*x`, which does start
with `*` — so "no yielded branch name ever starts with a star" does not
hold for every line. -/
theorem c10_branchLine_counterexample :
    processBranchLine ("**x".data) = "*x".data
    ∧ ("*x".data).head? = some '*' := by
  constructor <;> decide

/-- C10 (amended): each local branch-listing line yields one branch named
with the line minus a single leading `*` (if present) and minus
surrounding whitespace; no yielded name carries leading or trailing
whitespace (though a name can still begin with `*` when the line holds a
second star, as the counterexample shows); on the ordinary lines
`"* <name>\n"` and `"  <name>\n"` the yielded name is exactly `<name>`. -/
theorem c10_branchLine_processing :
    (∀ (line : List Char) (c : Char),
      (processBranchLine line).head? = some c → c.isWhitespace = false)
    ∧ (∀ (line : List Char) (c : Char),
      (processBranchLine line).getLast? = some c → c.isWhitespace = false)
    ∧ (∀ name : List Char, name ≠ [] →
        (∀ c ∈ name, c.isWhitespace = false) →
        processBranchLine ('*' :: ' ' :: (name ++ ['\n'])) = name
        ∧ processBranchLine (' ' :: ' ' :: (name ++ ['\n'])) = name) := by
  refine ⟨?_, ?_, ?_⟩
  · intro line c hcw
    exact head?_pyStrip_not_ws _ c hcw
  · intro line c hcw
    exact getLast?_pyStrip_not_ws _ c hcw
  · intro name h1 h2
    constructor
    · unfold processBranchLine
      rw [if_pos (by simp [List.isPrefixOf])]
      simp only [List.drop_succ_cons, List.drop_zero]
      exact pyStrip_ws_wrap [' '] name ['\n'] h1 h2 (by decide) (by decide)
    · unfold processBranchLine
      rw [if_neg (by simp [List.isPrefixOf])]
      exact pyStrip_ws_wrap [' ', ' '] name ['\n'] h1 h2 (by decide) (by decide)

/-- Concrete instantiation of `c10_branchLine_processing`: the
current-branch line `"* main\n"` yields the name `main`. -/
theorem c10_branchLine_processing_witness :
    processBranchLine ('*' :: ' ' :: ("main".data ++ ['\n'])) = "main".data :=
  (c10_branchLine_processing.2.2 ("main".data) (by decide) (by decide)).1

/-- Step laws of the shell lexer, separated because the mutual
definition's equations are not directly rewritable. -/
theorem lexOut_nil (cur : List Char) (started : Bool)
    (acc : List (List Char)) :
    lexOut [] cur started acc = some (if started then acc ++ [cur] else acc) := by
  rw [lexOut.eq_def]

theorem lexOut_squote (rest cur : List Char) (started : Bool)
    (acc : List (List Char)) :
    lexOut (squoteChar :: rest) cur started acc = lexSQ rest cur acc := by
  rw [lexOut.eq_def]
  dsimp only
  rw [if_pos rfl]

theorem lexOut_bslash (c2 : Char) (rest cur : List Char) (started : Bool)
    (acc : List (List Char)) :
    lexOut ('\\' :: (c2 :: rest)) cur started acc
      = lexOut rest (cur ++ [c2]) true acc := by
  rw [lexOut.eq_def]
  dsimp only
  rw [if_neg (show ¬('\\' : Char) = squoteChar from by decide),
    if_neg (show ¬('\\' : Char) = dquoteChar from by decide),
    if_pos rfl]

theorem lexSQ_close (rest cur : List Char) (acc : List (List Char)) :
    lexSQ (squoteChar :: rest) cur acc = lexOut rest cur true acc := by
  rw [lexSQ.eq_def]
  dsimp only
  rw [if_pos rfl]

theorem lexSQ_other (c : Char) (hc : c ≠ squoteChar)
    (rest cur : List Char) (acc : List (List Char)) :
    lexSQ (c :: rest) cur acc = lexSQ rest (cur ++ [c]) acc := by
  rw [lexSQ.eq_def]
  dsimp only
  rw [if_neg hc]

/-- A single-quoted region holding the escaped body of `s` hands back
exactly `cur ++ s` once the closing quote is reached. -/
theorem lexSQ_quoteBody (s : List Char) :
    ∀ cur acc, lexSQ (quoteBody s ++ [squoteChar]) cur acc
      = some (acc ++ [cur ++ s]) := by
  induction s with
  | nil =>
    intro cur acc
    rw [show quoteBody [] ++ [squoteChar] = squoteChar :: ([] : List Char) from by
      simp [quoteBody]]
    rw [lexSQ_close, lexOut_nil]
    simp
  | cons c s ih =>
    intro cur acc
    by_cases hc : c = squoteChar
    · subst hc
      rw [show quoteBody (squoteChar :: s) ++ [squoteChar]
          = squoteChar :: '\\' :: squoteChar ::
              (squoteChar :: (quoteBody s ++ [squoteChar])) from by
        simp [quoteBody]]
      rw [lexSQ_close, lexOut_bslash, lexOut_squote]
      rw [ih (cur ++ [squoteChar]) acc]
      simp
    · rw [show quoteBody (c :: s) ++ [squoteChar]
          = c :: (quoteBody s ++ [squoteChar]) from by
        simp [quoteBody, hc]]
      rw [lexSQ_other c hc]
      rw [ih (cur ++ [c]) acc]
      simp

/-- C8: quoting an arbitrary string for the shell and passing the result
back through the shell's word splitting yields exactly the original
string as a single argument. -/
theorem c8_shellQuoting_roundTrip (s : String) :
    shellSplitArgs (quote_for_shell s) = some [s] := by
  obtain ⟨d⟩ := s
  unfold shellSplitArgs quote_for_shell
  rw [show (String.mk (quoteChars d)).data = quoteChars d from rfl]
  unfold quoteChars
  rw [lexOut_squote, lexSQ_quoteBody d [] []]
  simp

/-- C3: `merge` returns normally when the underlying command succeeds and
surfaces `NotImplementedError` — never a `GitException` such as
`GitCommandFailedException` — whenever the underlying command fails. -/
theorem c3_merge_conversion (what : String) (inv : CommandInvocation) :
    merge what inv = (if inv.returncode = 0 then Except.ok ()
      else Except.error PyError.notImplementedError)
    ∧ ∀ e : GitException, merge what inv ≠ Except.error (PyError.git e) := by
  constructor
  · unfold merge executeGitCommandAssertSuccess
    by_cases h : inv.returncode = 0 <;> simp [h]
  · intro e
    unfold merge executeGitCommandAssertSuccess
    by_cases h : inv.returncode = 0 <;> simp [h]

/-- Concrete instantiation of `c3_merge_conversion`: a failing merge
command (exit status 1, e.g. a conflict) surfaces the unimplemented
signal, a succeeding one returns normally. -/
theorem c3_merge_conversion_witness :
    merge "dev" (CommandInvocation.mk "" "conflict" 1)
      = Except.error PyError.notImplementedError
    ∧ merge "dev" (CommandInvocation.mk "" "" 0) = Except.ok () :=
  ⟨((c3_merge_conversion "dev" (CommandInvocation.mk "" "conflict" 1)).1).trans
      (by simp),
   ((c3_merge_conversion "dev" (CommandInvocation.mk "" "" 0)).1).trans
      (by simp)⟩

/-- The claim as frozen is false on the code: `containsCommit`
(repository.py lines 120-125) also catches the command failure — on a
failed `git log -1 HEAD` it returns the normal value `False` instead of
propagating `GitCommandFailedException`, so merge is not the sole
exception to the propagation policy. -/
theorem c5_failure_propagation_counterexample :
    containsCommit "HEAD" (CommandInvocation.mk "" "fatal: bad revision" 1)
      = false
    ∧ executeGitCommandAssertSuccess "git log -1 HEAD"
        (CommandInvocation.mk "" "fatal: bad revision" 1)
      = Except.error (GitException.commandFailed "git log -1 HEAD"
          (CommandInvocation.mk "" "fatal: bad revision" 1)) := by
  refine ⟨by decide, ?_⟩
  simp [executeGitCommandAssertSuccess]

/-- C5 (amended): every repository operation — including `init`'s command
step and the remote ref listing — reports a failure of its external
command immediately and unchanged — as the `GitCommandFailedException`
carrying the command line and the invocation — with no retry and no local
recovery, the two exceptions being `merge` (failure becomes the
unimplemented signal) and `containsCommit` (failure becomes the normal
value `False`). -/
theorem c5_failure_propagation
    (inv : CommandInvocation) (hfail : inv.returncode ≠ 0)
    (url path name message what thing : String)
    (sp targetBranch flag repo : Option String) (files flags : List String)
    (bare : Bool) :
    cloneOp url path inv = Except.error (GitException.commandFailed
      ("git clone " ++ url ++ " " ++ path) inv)
    ∧ getCommitByRefNameOp name inv = Except.error (GitException.commandFailed
      ("git rev-parse " ++ name) inv)
    ∧ getFilesOp flags inv = Except.error (GitException.commandFailed
      ("git ls-files "
        ++ String.intercalate " " ("--exclude-standard" :: flags)) inv)
    ∧ getBranchesLocalOp inv = Except.error (GitException.commandFailed
      "git branch" inv)
    ∧ addOp path inv = Except.error (GitException.commandFailed
      ("git add " ++ quote_for_shell path) inv)
    ∧ commitOp message inv = Except.error (GitException.commandFailed
      ("git commit -m " ++ quote_for_shell message) inv)
    ∧ createBranch name sp inv = Except.error (GitException.commandFailed
      (createBranchCommand name sp) inv)
    ∧ checkoutOp thing targetBranch files inv
      = Except.error (GitException.commandFailed
        (checkoutCommand thing targetBranch files) inv)
    ∧ resetOp flag thing inv = Except.error (GitException.commandFailed
      ("git reset " ++ (match flag with | none => "" | some f => "--" ++ f)
        ++ " " ++ thing) inv)
    ∧ addRemoteOp name url inv = Except.error (GitException.commandFailed
      ("git remote add " ++ name ++ " " ++ url) inv)
    ∧ fetchOp repo inv = Except.error (GitException.commandFailed
      (fetchCommand repo) inv)
    ∧ pullOp repo inv = Except.error (GitException.commandFailed
      (pullCommand repo) inv)
    ∧ initCommandOp bare inv = Except.error (GitException.commandFailed
      ("git init " ++ (if bare then "--bare" else "")) inv)
    ∧ getRefsRemoteOp url inv = Except.error (GitException.commandFailed
      ("git ls-remote " ++ url) inv)
    ∧ merge what inv = Except.error PyError.notImplementedError
    ∧ containsCommit thing inv = false := by
  refine ⟨?_, ?_, ?_, ?_, ?_, ?_, ?_, ?_, ?_, ?_, ?_, ?_, ?_, ?_, ?_, ?_⟩ <;>
    simp [cloneOp, getCommitByRefNameOp, getFilesOp, getBranchesLocalOp,
      addOp, commitOp, createBranch, checkoutOp, resetOp, addRemoteOp,
      fetchOp, pullOp, initCommandOp, getRefsRemoteOp, merge,
      containsCommit, Except.map,
      getOutputAssertSuccess, executeGitCommandAssertSuccess, hfail]

/-- Concrete instantiation of `c5_failure_propagation`: on a failed
invocation, `add`, `init`'s command step and the remote ref listing
surface the command failure unchanged, `merge` the unimplemented signal,
and `containsCommit` the normal value `False`. -/
theorem c5_failure_propagation_witness :
    addOp "f.txt" (CommandInvocation.mk "" "" 1)
      = Except.error (GitException.commandFailed
        ("git add " ++ quote_for_shell "f.txt") (CommandInvocation.mk "" "" 1))
    ∧ initCommandOp false (CommandInvocation.mk "" "" 1)
      = Except.error (GitException.commandFailed "git init "
          (CommandInvocation.mk "" "" 1))
    ∧ getRefsRemoteOp "url" (CommandInvocation.mk "" "" 1)
      = Except.error (GitException.commandFailed "git ls-remote url"
          (CommandInvocation.mk "" "" 1))
    ∧ merge "topic" (CommandInvocation.mk "" "" 1)
      = Except.error PyError.notImplementedError
    ∧ containsCommit "abc" (CommandInvocation.mk "" "" 1) = false := by
  have h := c5_failure_propagation (CommandInvocation.mk "" "" 1) (by decide)
    "url" "" "" "" "topic" "abc" none none none none [] [] false
  have h2 := c5_failure_propagation (CommandInvocation.mk "" "" 1) (by decide)
    "" "f.txt" "" "" "" "" none none none none [] [] false
  refine ⟨h2.2.2.2.2.1,
    (h.2.2.2.2.2.2.2.2.2.2.2.2.1).trans (by simp),
    (h.2.2.2.2.2.2.2.2.2.2.2.2.2.1).trans (by simp),
    h.2.2.2.2.2.2.2.2.2.2.2.2.2.2.1,
    h.2.2.2.2.2.2.2.2.2.2.2.2.2.2.2⟩

/-- C6: a `LocalRepository`'s working directory is its path, every
operation that passes no explicit override executes its command in that
path, and over the complete call-site table only `clone` (override `"."`)
deviates. -/
theorem c6_workingDirectory (p : String) :
    getWorkingDirectory (Repository.localRepo p) = p
    ∧ resolveCwd (Repository.localRepo p) none = p
    ∧ localOpCwdOverrides.map
        (fun entry => resolveCwd (Repository.localRepo p) entry.2)
      = [p, ".", p, p, p, p, p, p, p, p, p, p, p, p, p] :=
  ⟨rfl, rfl, rfl⟩

/-- C7: `init` fails exactly when the target path exists and is not a
directory; for an absent (creatable) path it first creates the directory
and then runs the initialization command, with no failure. -/
theorem c7_init_failure_condition (path : String) (ps : PathState)
    (bare : Bool) :
    ((∃ e, initRepo path ps bare = Except.error e) ↔ ps = PathState.nonDir)
    ∧ (ps = PathState.absent →
        initRepo path ps bare = Except.ok (PathState.dir,
          "git init " ++ (if bare then "--bare" else ""))) := by
  cases ps <;> simp [initRepo]

/-- Concrete instantiation of `c7_init_failure_condition`: an absent path
is created and initialized; an existing non-directory fails. -/
theorem c7_init_failure_condition_witness :
    initRepo "/tmp/repo" PathState.absent false
      = Except.ok (PathState.dir, "git init ")
    ∧ ∃ e, initRepo "/tmp/repo" PathState.nonDir false = Except.error e :=
  ⟨(c7_init_failure_condition "/tmp/repo" PathState.absent false).2 rfl,
   ((c7_init_failure_condition "/tmp/repo" PathState.nonDir false).1).mpr rfl⟩

/-- `splitWSAux` on a whitespace-free remainder finishes the pending token
with the whole remainder attached. -/
theorem splitWSAux_all_nonws :
    ∀ (X cur : List Char), (∀ c ∈ X, c.isWhitespace = false) →
      cur ++ X ≠ [] → splitWSAux X cur = [cur ++ X] := by
  intro X
  induction X with
  | nil =>
    intro cur _ hne
    simp at hne
    simp [splitWSAux, hne]
  | cons c X ih =>
    intro cur hX _
    have hc : c.isWhitespace = false := hX c (by simp)
    rw [splitWSAux, if_neg (by simp [hc])]
    rw [ih (cur ++ [c]) (fun y hy => hX y (by simp [hy])) (by simp)]
    simp

/-- C9: with a non-`None` starting point, `createBranch` builds the
command `"git branch <name>"` with the starting point concatenated
directly — no separating space — so for whitespace-free non-empty inputs
the command's final token is the name and the starting point fused; on
success it returns a `Branch` carrying the requested name. -/
theorem c9_createBranch_fusedStartingPoint (name sp : String)
    (inv : CommandInvocation) :
    createBranchCommand name (some sp) = "git branch " ++ name ++ sp
    ∧ (inv.returncode = 0 →
        createBranch name (some sp) inv = Except.ok (Branch.mk name))
    ∧ (name.data ≠ [] → sp.data ≠ [] →
        (∀ c ∈ name.data, c.isWhitespace = false) →
        (∀ c ∈ sp.data, c.isWhitespace = false) →
        splitWS ((createBranchCommand name (some sp)).data)
          = ["git".data, "branch".data, name.data ++ sp.data]) := by
  refine ⟨by simp [createBranchCommand, String.append_assoc], ?_, ?_⟩
  · intro h0
    simp [createBranch, executeGitCommandAssertSuccess, h0, Except.map]
  · intro hn hs hnw hsw
    have hdata : (createBranchCommand name (some sp)).data
        = "git branch ".data ++ (name.data ++ sp.data) := by
      simp [createBranchCommand]
    rw [hdata]
    rw [show splitWS ("git branch ".data ++ (name.data ++ sp.data))
        = "git".data :: "branch".data
            :: splitWSAux (name.data ++ sp.data) [] from rfl]
    rw [splitWSAux_all_nonws (name.data ++ sp.data) []
      (by intro y hy; rcases List.mem_append.mp hy with h | h
          <;> [exact hnw y h; exact hsw y h])
      (by simp [hn])]
    simp

/-- Concrete instantiation of `c9_createBranch_fusedStartingPoint`: the
name `dev` with starting point `HEAD` produces the fused final token
`devHEAD`. -/
theorem c9_createBranch_fusedStartingPoint_witness :
    createBranchCommand "dev" (some "HEAD") = "git branch devHEAD"
    ∧ createBranch "dev" (some "HEAD") (CommandInvocation.mk "" "" 0)
      = Except.ok (Branch.mk "dev")
    ∧ splitWS ((createBranchCommand "dev" (some "HEAD")).data)
      = ["git".data, "branch".data, "devHEAD".data] := by
  have h := c9_createBranch_fusedStartingPoint "dev" "HEAD"
    (CommandInvocation.mk "" "" 0)
  exact ⟨h.1.trans (by decide), h.2.1 rfl,
    (h.2.2 (by decide) (by decide) (by decide) (by decide)).trans (by decide)⟩
